import Mathlib

set_option autoImplicit false

/-!
Verification of the interactive command-execution subsystem of the
`agent-node` repository (`src/function_ssh/`): the output sanitizer
`_remove_control_characters`, the `SSHDeviceBase` terminal-handshake and
`exec_commands` batch loop, the vendor `_send_command` read loops, the
`SSHConnectionPool` slot registry, and the `run_ssh_command` entry point.
Python strings are modelled as Lean `String`/`List Char`; the blocking
channel is modelled as a finite trace of read events; thread interleaving
is modelled sequentially (each pool operation is one atomic step).
-/

namespace AgentNode

/-! Python string primitives used by the subsystem, modelled on `List Char`.
Unicode-whitespace handling of `str.strip` is modelled over the ASCII
whitespace characters that can occur in device output. -/

/-- Whitespace recognised by Python `str.strip()` (ASCII range). -/
def pyIsSpace (c : Char) : Bool :=
  c = ' ' || c = '\t' || c = '\n' || c = '\r' || c = '\x0b' || c = '\x0c'

/-- Python `s.strip()` on a character list. -/
def trimChars (l : List Char) : List Char :=
  ((l.dropWhile pyIsSpace).reverse.dropWhile pyIsSpace).reverse

/-- Python `s.strip()`. -/
def pyStrip (s : String) : String := ⟨trimChars s.data⟩

/-- Python `s.replace("\r", "")`, applied to every received chunk. -/
def removeCR (s : String) : String := ⟨s.data.filter (· != '\r')⟩

/-- Python `s.split("\n")`: never returns an empty list. -/
def splitNl : List Char → List (List Char)
  | [] => [[]]
  | c :: rest =>
    let r := splitNl rest
    if c = '\n' then [] :: r
    else
      match r with
      | [] => [[c]]
      | h :: t => (c :: h) :: t

/-- Python `s.strip().split("\n")[-1]`: the last line of the stripped buffer,
tested against the prompt pattern after every read. -/
def pyLastLine (s : String) : String := ⟨(splitNl (trimChars s.data)).getLastD []⟩

/-- Python `needle in hay` substring test. -/
def containsL (hay needle : List Char) : Bool :=
  match hay with
  | [] => needle.isPrefixOf ([] : List Char)
  | _ :: t => needle.isPrefixOf hay || containsL t needle

/-- Python `needle in hay` on strings. -/
def containsStr (hay needle : String) : Bool := containsL hay.data needle.data

/-- Python `s.endswith(suffix)`. -/
def pyEndsWith (s suffix : String) : Bool :=
  suffix.data.reverse.isPrefixOf s.data.reverse

/-- Worker for `replaceAllL`: `skip` counts characters of a previous match
still to be dropped, keeping the recursion structural. -/
def replaceAllGo (p : List Char) : List Char → Nat → List Char
  | [], _ => []
  | _ :: rest, skip + 1 => replaceAllGo p rest skip
  | c :: rest, 0 =>
    if p ≠ [] && p.isPrefixOf (c :: rest) then
      replaceAllGo p rest (p.length - 1)
    else
      c :: replaceAllGo p rest 0

/-- Python `s.replace(p, "")`: removes every non-overlapping occurrence of
`p`, scanning left to right (the whole-buffer prompt removal in every
vendor `_send_command`). -/
def replaceAllL (p l : List Char) : List Char := replaceAllGo p l 0

/-- Python `s.replace(p, "")` on strings. -/
def replaceAllStr (s p : String) : String := ⟨replaceAllL p.data s.data⟩

/-! Model of `_remove_control_characters` (SSHDeviceBase.py lines 10-17):
first `re.sub` of the ANSI pattern — an ESC byte followed by either one
character of the class `@`..`Z`, `\`..`_` (compiled with `re.I`), or by
`[`, then parameter bytes `0`..`?`, intermediate bytes space..`/`, and one
final byte `@`..`~` — then a filter keeping characters with `ord >= 32`
plus newline and tab. The case-insensitive single-final class is modelled
over its ASCII case range. -/

/-- Character class `[@-Z\\-_]` under `re.I`: `@`..`Z`, `\`..`_`, and the
lowercase letters folded into `@`..`Z` by IGNORECASE. -/
def ansiSingleFinal (c : Char) : Bool :=
  ('@' ≤ c && c ≤ 'Z') || ('\\' ≤ c && c ≤ '_') || ('a' ≤ c && c ≤ 'z')

/-- Character class `[0-?]` (CSI parameter bytes). -/
def csiParam (c : Char) : Bool := '0' ≤ c && c ≤ '?'

/-- Character class of the CSI intermediate bytes, space..`/`. -/
def csiInter (c : Char) : Bool := ' ' ≤ c && c ≤ '/'

/-- Character class `[@-~]` (CSI final byte). -/
def csiFinal (c : Char) : Bool := '@' ≤ c && c ≤ '~'

/-- Length of the ANSI-escape regex match at the head of the list, `0` when
there is none.  The three CSI classes are pairwise disjoint, so the greedy
stars of the pattern never backtrack and `dropWhile` models them exactly. -/
def ansiLen : List Char → Nat
  | [] => 0
  | [_] => 0
  | c :: d :: rest =>
    if c = '\x1b' then
      if d = '[' then
        match (rest.dropWhile csiParam).dropWhile csiInter with
        | [] => 0
        | f :: r3 => if csiFinal f then rest.length - (f :: r3).length + 3 else 0
      else if ansiSingleFinal d then 2 else 0
    else 0

/-- Worker for `ansiStrip`: left-to-right scan of `re.sub`, with `skip`
counting the rest of the characters of a match being deleted. -/
def ansiStripGo : List Char → Nat → List Char
  | [], _ => []
  | _ :: rest, skip + 1 => ansiStripGo rest skip
  | c :: rest, 0 =>
    let n := ansiLen (c :: rest)
    if n = 0 then c :: ansiStripGo rest 0
    else ansiStripGo rest (n - 1)

/-- `ansi_escape.sub('', text)`: delete every match of the ANSI pattern. -/
def ansiStrip (l : List Char) : List Char := ansiStripGo l 0

/-- The filter `ord(char) >= 32 or char in '\n\t'`. -/
def keepChar (c : Char) : Bool := 32 ≤ c.toNat || c = '\n' || c = '\t'

/-- `_remove_control_characters` on a character list. -/
def removeControlCharactersL (l : List Char) : List Char :=
  (ansiStrip l).filter keepChar

/-- `_remove_control_characters` (SSHDeviceBase.py lines 10-17). -/
def removeControlCharacters (s : String) : String := ⟨removeControlCharactersL s.data⟩

theorem ansiLen_cons_ne {c : Char} (l : List Char) (hc : c ≠ '\x1b') :
    ansiLen (c :: l) = 0 := by
  cases l with
  | nil => rfl
  | cons d rest => simp [ansiLen, hc]

theorem ansiStripGo_zero_of_not_mem {l : List Char} (h : '\x1b' ∉ l) :
    ansiStripGo l 0 = l := by
  induction l with
  | nil => rfl
  | cons c rest ih =>
    have hc : c ≠ '\x1b' := fun hcc => h (hcc ▸ List.mem_cons_self c rest)
    have hr : '\x1b' ∉ rest := fun hm => h (List.mem_cons_of_mem c hm)
    simp [ansiStripGo, ansiLen_cons_ne rest hc, ih hr]

theorem ansiStrip_of_not_mem {l : List Char} (h : '\x1b' ∉ l) : ansiStrip l = l :=
  ansiStripGo_zero_of_not_mem h

theorem keepChar_esc : keepChar '\x1b' = false := by decide

theorem esc_not_mem_filter_keep (l : List Char) : '\x1b' ∉ l.filter keepChar := by
  intro h
  have := List.of_mem_filter h
  rw [keepChar_esc] at this
  exact Bool.false_ne_true this

theorem removeControlCharactersL_idem (l : List Char) :
    removeControlCharactersL (removeControlCharactersL l) = removeControlCharactersL l := by
  unfold removeControlCharactersL
  rw [ansiStrip_of_not_mem (esc_not_mem_filter_keep (ansiStrip l))]
  rw [List.filter_filter]
  simp

/-- C8: the output sanitizer `_remove_control_characters` — which strips
ANSI escape sequences and then control characters other than newline and
tab — is idempotent: applying it twice yields the same string as applying
it once. -/
theorem c8_sanitizer_idempotent (s : String) :
    removeControlCharacters (removeControlCharacters s) = removeControlCharacters s := by
  unfold removeControlCharacters
  exact congrArg String.mk (removeControlCharactersL_idem s.data)

/-! Model of `SSHDeviceBase.exec_commands` (SSHDeviceBase.py lines 144-181).
The vendor `_send_command` is abstracted as an oracle from the command
index to the Python return value: `None`, or a pair whose first component
is `False` or the matched prompt.  The model also records which commands
were written to the transport. -/

/-- First component of a `_send_command` result: `False` (error marker
matched) or the matched prompt string. -/
inductive PromptVal where
  | fail : PromptVal
  | prompt (s : String) : PromptVal
  deriving DecidableEq, Repr

/-- A `_send_command` return value: `None` or `(prompt, detail)`. -/
abbrev SendRespond := Option (PromptVal × String)

/-- The key `"[{idx}]{cmd}"` of the result dictionary. -/
def cmdKey (idx : Nat) (cmd : String) : String :=
  "[" ++ toString idx ++ "]" ++ cmd

/-- Loop body of `exec_commands` (lines 157-179): result entries are
accumulated in insertion order, `sent` records the commands passed to
`_send_command`.  Every branch that records a failure also breaks out of
the loop, so the `error_flag` guard at the top of the body is preserved
but never reached with `error_flag = true`. -/
def execCommandsGo (oracle : Nat → SendRespond) :
    List String → Nat → Bool → List (String × String) → List String →
    List (String × String) × List String
  | [], _, _, acc, sent => (acc, sent)
  | c :: rest, idx, errorFlag, acc, sent =>
    let i := pyStrip c
    if errorFlag then
      (acc ++ [(cmdKey idx i, "failed")], sent)
    else
      match oracle idx with
      | some (PromptVal.fail, detail) =>
        (acc ++ [(cmdKey idx i, "failed: " ++ removeControlCharacters (pyStrip detail))],
         sent ++ [i])
      | some (PromptVal.prompt _, detail) =>
        execCommandsGo oracle rest (idx + 1) errorFlag
          (acc ++ [(cmdKey idx i, removeControlCharacters (pyStrip detail))]) (sent ++ [i])
      | none =>
        (acc ++ [(cmdKey idx i, "failed")], sent ++ [i])

/-- `exec_commands(commands)` for a list argument (the non-list guard of
line 153 cannot fire for a typed list), returning the result dictionary as
an ordered entry list together with the commands actually sent. -/
def execCommands (oracle : Nat → SendRespond) (commands : List String) :
    List (String × String) × List String :=
  execCommandsGo oracle commands 0 false [] []

/-- Oracle of the C1 scenario: the device answers the 1st command with
success and the 2nd with an error-marker match. -/
def c1Oracle : Nat → SendRespond := fun n =>
  if n = 0 then some (PromptVal.prompt "R1#", "ok-output")
  else if n = 1 then some (PromptVal.fail, "bad command")
  else some (PromptVal.prompt "R1#", "later")

/-- C1 counterexample: with 4 non-blank commands, success on the 1st and an
error-marker match on the 2nd, the map returned by `exec_commands` has
entries for commands 1 and 2 only — the loop breaks before commands 3 and
4 are reached, so they receive no `"failed"` entries (and are never sent),
contrary to the claim. -/
theorem c1_counterexample :
    (execCommands c1Oracle ["show a", "show b", "show c", "show d"]).1.map Prod.fst
        = ["[0]show a", "[1]show b"]
      ∧ (execCommands c1Oracle ["show a", "show b", "show c", "show d"]).2
        = ["show a", "show b"]
      ∧ "[2]show c" ∉ (execCommands c1Oracle ["show a", "show b", "show c", "show d"]).1.map Prod.fst
      ∧ "[3]show d" ∉ (execCommands c1Oracle ["show a", "show b", "show c", "show d"]).1.map Prod.fst := by
  decide

/-- C1 (amended): for a batch of 4 commands where the send cycle returns
success for the 1st and `(False, detail)` for the 2nd, `exec_commands`
returns entries for commands 1 and 2 only — the 2nd prefixed `"failed: "` —
and commands 3 and 4 get no entries at all and are never written to the
transport. -/
theorem c1_amended (oracle : Nat → SendRespond) (c1 c2 c3 c4 p d1 d2 : String)
    (h0 : oracle 0 = some (PromptVal.prompt p, d1))
    (h1 : oracle 1 = some (PromptVal.fail, d2)) :
    execCommands oracle [c1, c2, c3, c4]
      = ([(cmdKey 0 (pyStrip c1), removeControlCharacters (pyStrip d1)),
          (cmdKey 1 (pyStrip c2), "failed: " ++ removeControlCharacters (pyStrip d2))],
         [pyStrip c1, pyStrip c2]) := by
  simp [execCommands, execCommandsGo, h0, h1]

/-- C1 witness: the amended theorem evaluated on the concrete scenario. -/
theorem c1_witness :
    execCommands c1Oracle ["show a", "show b", "show c", "show d"]
      = ([("[0]show a", "ok-output"), ("[1]show b", "failed: bad command")],
         ["show a", "show b"]) :=
  (c1_amended c1Oracle "show a" "show b" "show c" "show d" "R1#" "ok-output" "bad command"
      (by decide) (by decide)).trans (by decide)

/-! Model of `SSHDeviceBase._init_terminal` (SSHDeviceBase.py lines 84-115)
and of the constructor path through `_establish` (lines 59-82).  The
blocking channel is a finite trace of read events: a decoded chunk or a
timeout (the `recv` exception).  The prompt regex is abstracted as a
function from the last line to the first `findall` match.  The
`while True` loop only terminates on a prompt match or an exhausted retry
counter; an exhausted trace is modelled as the loop never exiting with a
prompt, which no claim scenario reaches. -/

/-- One read on the interactive shell during prompt detection. -/
inductive ReadEv where
  | chunk (s : String)
  | timeoutE
  deriving DecidableEq, Repr

/-- Outcome of `_init_terminal`: the detected prompt (if any), the number
of `recv` attempts, the number of bare newlines sent on timeout, whether
`close()` was called, and whether `_set_terminal` ran. -/
structure InitResult where
  currentPrompt : Option String
  reads : Nat
  newlinesSent : Nat
  closed : Bool
  setTerminalRun : Bool
  deriving DecidableEq, Repr

/-- The `while True` loop of `_init_terminal`: `retry` starts at `1`, is
incremented on each timeout, and the loop breaks when it reaches `3`; a
newline is sent only when the incremented counter is still below `3`. -/
def initTerminalGo (pm : String → Option String) :
    List ReadEv → String → Nat → Nat → Nat → Option String × Nat × Nat
  | [], _, _, reads, sends => (none, reads, sends)
  | ReadEv.chunk s :: rest, lineData, retry, reads, sends =>
    let lineData2 := lineData ++ removeCR s
    match pm (pyLastLine lineData2) with
    | some p => (some p, reads + 1, sends)
    | none => initTerminalGo pm rest lineData2 retry (reads + 1) sends
  | ReadEv.timeoutE :: rest, lineData, retry, reads, sends =>
    if retry + 1 ≥ 3 then (none, reads + 1, sends)
    else initTerminalGo pm rest lineData (retry + 1) (reads + 1) (sends + 1)

/-- `_init_terminal`: after the loop, a detected prompt leads to
`_set_terminal()`, otherwise the session is closed — with no exception
raised in either case. -/
def initTerminal (pm : String → Option String) (evs : List ReadEv) : InitResult :=
  match initTerminalGo pm evs "" 1 0 0 with
  | (some p, reads, sends) => ⟨some p, reads, sends, false, true⟩
  | (none, reads, sends) => ⟨none, reads, sends, true, false⟩

/-- The Debian init-prompt regex `(.+?:~[$])$` applied to the last line by
`findall`: the match must end at the end of the line, so a match exists
iff the line ends in `:~$` preceded by at least one character; the lazy
group extends left to the start of the line (dot does not cross a
newline, so the match starts after the last newline if any). -/
def debianPromptMatch (s : String) : Option String :=
  let l := s.data
  if [':', '~', '$'].reverse.isPrefixOf l.reverse then
    let body := l.take (l.length - 3)
    let keep := (splitNl body).getLastD []
    if keep.isEmpty || keep.any (· = '\n') then none
    else some ⟨keep ++ [':', '~', '$']⟩
  else none

/-- Constructor model for `DebianDevice` after `paramiko` either connects
or fails: on connect failure `_establish` re-raises; otherwise
`_init_terminal` runs and never raises for this vendor (Debian
`_set_terminal` is `pass`, and the no-prompt branch merely calls
`close()`), so `__init__` returns normally with whatever `current_prompt`
was reached. -/
def debianConstruct (connectOk : Bool) (evs : List ReadEv) : Except String InitResult :=
  if connectOk then Except.ok (initTerminal debianPromptMatch evs)
  else Except.error "SSH连接失败"

/-- C3 counterexample: with a connected transport whose reads time out
twice, the `DebianDevice` constructor returns normally (`Except.ok`) with
`current_prompt = none` and the session closed — a non-Ready session is
returned instead of an exception being raised. -/
theorem c3_counterexample :
    debianConstruct true [ReadEv.timeoutE, ReadEv.timeoutE]
      = Except.ok ⟨none, 2, 1, true, false⟩ := by
  rfl

/-- C3 (amended): when prompt detection exhausts its retry budget the
constructor does not raise: it closes the session and returns normally
with `current_prompt = None`; and whenever a constructed session has no
prompt, the session was closed and terminal setup was skipped (a
constructed session is Ready only when a prompt was detected). -/
theorem c3_amended (evs evs2 : List ReadEv) (r : InitResult)
    (h : debianConstruct true evs2 = Except.ok r) :
    debianConstruct true (ReadEv.timeoutE :: ReadEv.timeoutE :: evs)
        = Except.ok ⟨none, 2, 1, true, false⟩
      ∧ (r.currentPrompt = none → r.closed = true ∧ r.setTerminalRun = false) := by
  constructor
  · rfl
  · intro hr
    have hr2 : initTerminal debianPromptMatch evs2 = r := by
      have h2 := h
      unfold debianConstruct at h2
      simpa using h2
    unfold initTerminal at hr2
    rcases hgo : initTerminalGo debianPromptMatch evs2 "" 1 0 0 with ⟨op, reads, sends⟩
    rw [hgo] at hr2
    cases op with
    | some p =>
      rw [← hr2] at hr
      exact absurd hr (by simp)
    | none =>
      rw [← hr2]
      exact ⟨rfl, rfl⟩

/-- C3 witness: the amended theorem applied to the two-timeout trace. -/
theorem c3_witness :
    debianConstruct true [ReadEv.timeoutE, ReadEv.timeoutE]
        = Except.ok ⟨none, 2, 1, true, false⟩
      ∧ ((⟨none, 2, 1, true, false⟩ : InitResult).currentPrompt = none →
         (⟨none, 2, 1, true, false⟩ : InitResult).closed = true
           ∧ (⟨none, 2, 1, true, false⟩ : InitResult).setTerminalRun = false) :=
  c3_amended [] [ReadEv.timeoutE, ReadEv.timeoutE] ⟨none, 2, 1, true, false⟩ (by rfl)

/-- C6 counterexample: on a channel that always times out, the loop makes
only 2 read attempts and sends only 1 bare newline before giving up — the
second timeout sends no newline and triggers no retry, contradicting
"every read timeout causes a bare newline to be sent and the read to be
retried, up to a retry budget of 3 attempts" (2 timeouts occurred, and a
third attempt never happens). -/
theorem c6_counterexample :
    initTerminal (fun _ => none) [ReadEv.timeoutE, ReadEv.timeoutE, ReadEv.timeoutE]
        = ⟨none, 2, 1, true, false⟩
      ∧ (initTerminal (fun _ => none)
          [ReadEv.timeoutE, ReadEv.timeoutE, ReadEv.timeoutE]).reads ≠ 3
      ∧ (initTerminal (fun _ => none)
          [ReadEv.timeoutE, ReadEv.timeoutE, ReadEv.timeoutE]).newlinesSent ≠ 2 := by
  decide

/-- C6 (amended): only the first read timeout causes a bare newline to be
sent and the read to be retried; the retry counter starts at 1 and the
loop stops when it reaches 3, so the second consecutive timeout exhausts
the budget after 2 read attempts and 1 newline, after which the session is
closed as unauthenticated; a successful read after the first timeout still
detects the prompt and proceeds to terminal setup. -/
theorem c6_amended (evs evs2 : List ReadEv) :
    initTerminal debianPromptMatch (ReadEv.timeoutE :: ReadEv.timeoutE :: evs)
        = ⟨none, 2, 1, true, false⟩
      ∧ initTerminal debianPromptMatch
          (ReadEv.timeoutE :: ReadEv.chunk "nb@host:~$" :: evs2)
        = ⟨some "nb@host:~$", 2, 1, false, true⟩ := by
  exact ⟨rfl, rfl⟩

/-! Model of `CiscoXRDevice._send_command` (CiscoXRDevice.py lines 39-70),
a vendor whose grammar declares no continuation markers
(`next_prompts = []`; two hard-coded auto-answers remain in the read
loop).  The channel is a trace of events: a decoded chunk, an empty read
(`if line:` false, EOF) or a timeout exception — the latter two break the
loop, which then falls off the function and returns `None`. -/

/-- One read on the interactive shell during a send-command cycle. -/
inductive SendEv where
  | chunk (s : String)
  | eofE
  | timeoutE
  deriving DecidableEq, Repr

/-- Outcome of `_send_command`: the Python return value, the updated
`current_prompt` (when a prompt was matched), and the auto-responses sent
by the continuation branches. -/
structure SendOutcome where
  respond : SendRespond
  newPrompt : Option String
  autoSent : List String
  deriving DecidableEq, Repr

/-- Character class `[a-zA-Z0-9_()/:.+-]` of the Cisco XR prompt regex. -/
def xrClassChar (c : Char) : Bool :=
  c.isAlphanum || c = '_' || c = '(' || c = ')' || c = '/' || c = ':'
    || c = '.' || c = '+' || c = '-'

/-- The Cisco XR prompt regex `[a-zA-Z0-9_()/:.+-]+?#$` applied to the
last line by `findall`: anchored at the end of the line, so the (single)
match is the maximal run of class characters ending at a final `#`,
provided that run is non-empty. -/
def xrPromptMatch (s : String) : Option String :=
  match s.data.reverse with
  | '#' :: rest =>
    let run := rest.takeWhile xrClassChar
    if run.isEmpty then none
    else some ⟨run.reverse ++ ['#']⟩
  | _ => none

/-- `error_prompts` of `CiscoXRDevice`. -/
def xrErrorPrompts : List String :=
  ["at \x27^\x27 marker", "Incomplete command", "authorization failed"]

/-- The read loop of `CiscoXRDevice._send_command` (lines 44-70): chunks
accumulate into `cmd_cache` with `\r` stripped; after each chunk the last
line of the stripped cache is tested against the prompt regex.  On a match
every occurrence of the matched prompt is deleted from the cache
(`str.replace` replaces all occurrences), error markers are looked for in
the remainder, and the pair is returned.  Without a match, the two
hard-coded confirmation endings trigger auto-responses and reading
continues.  An exhausted trace stands for a channel that never produces
the loop-ending events. -/
def xrSendGo (command : String) : List SendEv → String → List String → SendOutcome
  | [], _, auto => ⟨none, none, auto⟩
  | SendEv.eofE :: _, _, auto => ⟨none, none, auto⟩
  | SendEv.timeoutE :: _, _, auto => ⟨none, none, auto⟩
  | SendEv.chunk s :: rest, cache, auto =>
    let cache2 := cache ++ removeCR s
    match xrPromptMatch (pyLastLine cache2) with
    | some p =>
      let cache3 := replaceAllStr cache2 p
      if xrErrorPrompts.any (fun e => containsStr cache3 e) then
        ⟨some (PromptVal.fail, pyStrip cache3), some p, auto⟩
      else
        ⟨some (PromptVal.prompt p, pyStrip cache3), some p, auto⟩
    | none =>
      let auto2 := if pyEndsWith (pyStrip cache2) "]?" then auto ++ ["\n"] else auto
      let auto3 :=
        if pyEndsWith (pyStrip cache2) "yes/no]:" then
          if command = "exit" || command = "end" then auto2 ++ ["no\n"]
          else auto2 ++ ["yes\n"]
        else auto2
      xrSendGo command rest cache2 auto3

/-- `CiscoXRDevice._send_command(command)` over a channel trace (the write
of `command + "\n"` precedes the loop and is implicit). -/
def xrSendCommand (command : String) (evs : List SendEv) : SendOutcome :=
  xrSendGo command evs "" []

theorem isPrefixOf_self (p : List Char) : p.isPrefixOf p = true := by
  induction p with
  | nil => rfl
  | cons c rest ih => simp [List.isPrefixOf, ih]

theorem replaceAllGo_skip_length (p : List Char) :
    ∀ l : List Char, replaceAllGo p l l.length = [] := by
  intro l
  induction l with
  | nil => rfl
  | cons c rest ih => exact ih

/-- When `p` occurs in `body ++ p` only at the final position, deleting
every occurrence of `p` (Python `str.replace`) deletes exactly that final
occurrence. -/
theorem replaceAllL_single_occurrence :
    ∀ (body p : List Char), p ≠ [] →
      (∀ i, i ≤ body.length → p.isPrefixOf ((body ++ p).drop i) = true → i = body.length) →
      replaceAllL p (body ++ p) = body := by
  intro body
  induction body with
  | nil =>
    intro p hp _
    match p, hp with
    | d :: p2, _ =>
      show replaceAllGo (d :: p2) (d :: p2) 0 = []
      have hpre := isPrefixOf_self (d :: p2)
      have hskip := replaceAllGo_skip_length (d :: p2) p2
      simp [replaceAllGo, hpre]
      simpa using hskip
  | cons c b ih =>
    intro p hp huniq
    have hnotpre : p.isPrefixOf (c :: (b ++ p)) = false := by
      cases hval : p.isPrefixOf (c :: (b ++ p)) with
      | false => rfl
      | true =>
        have h0 := huniq 0 (Nat.zero_le _) (by simpa using hval)
        simp at h0
    have hb : replaceAllGo p (b ++ p) 0 = b := ih p hp (fun i hi hpre => by
      have hu := huniq (i + 1) (by simpa using Nat.succ_le_succ hi) (by simpa using hpre)
      have h2 : i + 1 = b.length + 1 := by simpa using hu
      exact Nat.succ_injective h2)
    show replaceAllGo p (c :: (b ++ p)) 0 = c :: b
    simp [replaceAllGo, hnotpre, hb]

theorem removeCR_of_no_cr {c : String} (h : '\r' ∉ c.data) : removeCR c = c := by
  unfold removeCR
  have : c.data.filter (· != '\r') = c.data := by
    apply List.filter_eq_self.mpr
    intro a ha
    have : a ≠ '\r' := fun he => h (he ▸ ha)
    simpa using this
  rw [this]

/-- The send-loop over a trace of chunks whose concatenation is
`body ++ p`, where no intermediate last line matches the prompt, the full
last line matches `p`, `p` occurs only at the final position, and `body`
contains no error marker: the loop returns the prompt and the full body,
stripped. -/
theorem xrSendGo_chunks_respond (command : String) (body p : List Char)
    (hp : p ≠ [])
    (hmatch : xrPromptMatch (pyLastLine ⟨body ++ p⟩) = some ⟨p⟩)
    (huniq : ∀ i, i ≤ body.length → p.isPrefixOf ((body ++ p).drop i) = true → i = body.length)
    (herr : ∀ e ∈ xrErrorPrompts, containsStr ⟨body⟩ e = false) :
    ∀ (cs : List String) (cache : String) (auto : List String),
      cs ≠ [] →
      (∀ c ∈ cs, '\r' ∉ c.data) →
      cache.data ++ (cs.map String.data).flatten = body ++ p →
      (∀ n, n < cs.length →
        xrPromptMatch (pyLastLine ⟨cache.data ++ ((cs.take n).map String.data).flatten⟩) = none) →
      (xrSendGo command (cs.map SendEv.chunk) cache auto).respond
        = some (PromptVal.prompt ⟨p⟩, pyStrip ⟨body⟩) := by
  intro cs
  induction cs with
  | nil => intro cache auto hne _ _ _; exact absurd rfl hne
  | cons c rest ihr =>
    intro cache auto _ hcr hjoin hpre
    have hcrc : '\r' ∉ c.data := hcr c (List.mem_cons_self c rest)
    have hc2 : (cache ++ removeCR c).data = cache.data ++ c.data := by
      rw [removeCR_of_no_cr hcrc, String.data_append]
    show (xrSendGo command (SendEv.chunk c :: rest.map SendEv.chunk)
            cache auto).respond = _
    rw [xrSendGo]
    cases rest with
    | nil =>
      have hfull : (cache ++ removeCR c).data = body ++ p := by
        rw [hc2]
        simpa using hjoin
      have hcache2 : cache ++ removeCR c = ⟨body ++ p⟩ := by
        rw [← hfull]
      rw [hcache2]
      have hrepl : replaceAllStr ⟨body ++ p⟩ ⟨p⟩ = ⟨body⟩ :=
        congrArg String.mk (replaceAllL_single_occurrence body p hp huniq)
      have hany : xrErrorPrompts.any (fun e => containsStr ⟨body⟩ e) = false := by
        rw [List.any_eq_false]
        intro e he
        simp [herr e he]
      simp [hmatch, hrepl, hany]
    | cons c2 rest2 =>
      have hnone : xrPromptMatch (pyLastLine (cache ++ removeCR c)) = none := by
        have h1 := hpre 1 (by simp)
        have heq : cache.data ++ (((c :: c2 :: rest2).take 1).map String.data).flatten
            = (cache ++ removeCR c).data := by
          rw [hc2]
          simp
        rw [heq] at h1
        simpa using h1
      rw [hnone]
      apply ihr (cache ++ removeCR c) _
        (by simp)
        (fun x hx => hcr x (List.mem_cons_of_mem c hx))
        (by rw [hc2, List.append_assoc]; simpa using hjoin)
        (by
          intro n hn
          have h2 := hpre (n + 1) (by simpa using Nat.succ_lt_succ hn)
          have heq : cache.data ++ (((c :: c2 :: rest2).take (n + 1)).map String.data).flatten
              = (cache ++ removeCR c).data ++ (((c2 :: rest2).take n).map String.data).flatten := by
            rw [hc2, List.append_assoc]
            simp
          rw [heq] at h2
          exact h2)

/-- C7 counterexample: for command output whose body itself contains the
prompt text, the whole-buffer `str.replace` removes the body occurrence
too: the returned text is `"hello  world"`, not the claimed
`"hello R1# world"` (the accumulated output with the matched prompt
removed exactly once) — a portion of the output is dropped. -/
theorem c7_counterexample :
    (xrSendCommand "show run"
        [SendEv.chunk "hello R1# world\n", SendEv.chunk "R1#"]).respond
        = some (PromptVal.prompt "R1#", "hello  world")
      ∧ containsStr "hello R1# world" "R1#" = true
      ∧ ("hello  world" : String) ≠ "hello R1# world" := by
  decide

/-- C7 (amended): the send loop returns the accumulated response with
every occurrence of the matched prompt string removed; in particular, when
the prompt text occurs in the accumulated buffer only at its terminating
position (and no error marker appears), the full multi-chunk output is
returned exactly once, stripped, with only that final prompt removed — no
truncation and no duplication. -/
theorem c7_amended (command : String) (body p : List Char) (cs : List String)
    (hp : p ≠ [])
    (hmatch : xrPromptMatch (pyLastLine ⟨body ++ p⟩) = some ⟨p⟩)
    (huniq : ∀ i, i ≤ body.length → p.isPrefixOf ((body ++ p).drop i) = true → i = body.length)
    (herr : ∀ e ∈ xrErrorPrompts, containsStr ⟨body⟩ e = false)
    (hne : cs ≠ [])
    (hcr : ∀ c ∈ cs, '\r' ∉ c.data)
    (hjoin : (cs.map String.data).flatten = body ++ p)
    (hpre : ∀ n, n < cs.length →
      xrPromptMatch (pyLastLine ⟨((cs.take n).map String.data).flatten⟩) = none) :
    (xrSendCommand command (cs.map SendEv.chunk)).respond
      = some (PromptVal.prompt ⟨p⟩, pyStrip ⟨body⟩) := by
  exact xrSendGo_chunks_respond command body p hp hmatch huniq herr cs "" []
    hne hcr (by simpa using hjoin) (by simpa using hpre)

/-- C7 witness: a two-chunk response `"line1\n" ++ "R1#"` whose prompt
occurs only at the end round-trips to the full body `"line1"`. -/
theorem c7_witness :
    (xrSendCommand "show run"
        [SendEv.chunk "line1\n", SendEv.chunk "R1#"]).respond
      = some (PromptVal.prompt "R1#", "line1") := by
  have h := c7_amended "show run" "line1\n".data "R1#".data ["line1\n", "R1#"]
    (by decide) (by decide)
    (by decide)
    (by decide) (by decide) (by decide) (by decide)
    (by decide)
  exact h.trans (by decide)

/-! Model of `SSHConnectionPool` (sshClient.py lines 105-272).  The
registry `self.hosts` is a dict from host to a dict from slot name
`conn_{idx}` to `{client, lock, ...}`, modelled as insertion-ordered
association lists keyed by the host string and the slot index.  Thread
interleaving is modelled sequentially: each pool operation is one atomic
step, so the `while retry > 0 ... time.sleep(1)` re-scan loop of
`get_connection` sees an unchanged registry.  Sessions are identified by
an abstract client id; `SSHClientFactory.create_client` is an oracle
giving the id of the constructed session or `none` on failure. -/

/-- One slot `{lock, client}` of a per-host pool. -/
structure Slot where
  locked : Bool
  client : Option Nat
  deriving DecidableEq, Repr

/-- A freshly created slot: the code acquires its lock immediately and has
not yet bound a client. -/
def newSlot : Slot := ⟨true, none⟩

/-- Per-host pool: association list from slot index to slot. -/
abbrev HostPool := List (Nat × Slot)

/-- The registry `self.hosts`. -/
structure PoolState where
  hosts : List (String × HostPool)
  deriving DecidableEq, Repr

/-- Dict lookup. -/
def alookup {α β : Type} [DecidableEq α] (k : α) : List (α × β) → Option β
  | [] => none
  | (k2, v) :: rest => if k2 = k then some v else alookup k rest

/-- Dict assignment: update in place, else append (Python dicts preserve
insertion order). -/
def aupdate {α β : Type} [DecidableEq α] (k : α) (v : β) : List (α × β) → List (α × β)
  | [] => [(k, v)]
  | (k2, v2) :: rest => if k2 = k then (k, v) :: rest else (k2, v2) :: aupdate k v rest

/-- Dict `del`. -/
def aerase {α β : Type} [DecidableEq α] (k : α) : List (α × β) → List (α × β)
  | [] => []
  | (k2, v2) :: rest => if k2 = k then rest else (k2, v2) :: aerase k rest

/-- Observable pool events: a `get_connection` call, a slot lock
acquisition, a lock release (`release_connection`), an eviction
(`disconnect`). -/
inductive PoolEv where
  | getConnCall
  | lockAcquired (host : String) (conn : Nat)
  | released (host : String) (conn : Nat)
  | evicted (host : String) (conn : Nat)
  deriving DecidableEq, Repr

/-- The `for idx in range(0, max_connections_per_host)` scan (lines
164-184): the first existing slot whose lock is free is locked and
returned (`is_create = false`, with its bound client); the first missing
index gets a fresh locked slot (`is_create = true`); all-held pools yield
`none`. -/
def scanSlots (pool : HostPool) : Nat → Nat → Option (Nat × Bool × Option Nat × HostPool)
  | 0, _ => none
  | remaining + 1, idx =>
    match alookup idx pool with
    | some s =>
      if s.locked then scanSlots pool remaining (idx + 1)
      else some (idx, false, s.client, aupdate idx ⟨true, s.client⟩ pool)
    | none => some (idx, true, none, aupdate idx newSlot pool)

/-- The `while retry > 0` loop (lines 160-187) with its budget of 30
re-scans; sequentially the registry cannot change between scans, so a
fully held pool stays fully held and the loop returns `None`. -/
def getConnLoop (pool : HostPool) (maxConn : Nat) : Nat → Option (Nat × Bool × Option Nat × HostPool)
  | 0 => none
  | fuel + 1 =>
    match scanSlots pool maxConn 0 with
    | some r => some r
    | none => getConnLoop pool maxConn fuel

/-- `SSHConnectionPool.get_connection` (lines 127-203).  `create` is the
result of the (at most one) `SSHClientFactory.create_client` call of this
invocation.  Returns the `(conn index, bound client)` of the returned
slot dict (or `none`), the updated registry, and the observable events. -/
def getConnection (maxConn : Nat) (create : Option Nat) (host : String) (st : PoolState) :
    Option (Nat × Option Nat) × PoolState × List PoolEv :=
  match alookup host st.hosts with
  | none =>
    let pool0 : HostPool := [(0, newSlot)]
    let st1 : PoolState := ⟨aupdate host pool0 st.hosts⟩
    match create with
    | some cid =>
      let pool2 := aupdate 0 ⟨true, some cid⟩ pool0
      (some (0, some cid), ⟨aupdate host pool2 st1.hosts⟩,
        [PoolEv.getConnCall, PoolEv.lockAcquired host 0])
    | none => (none, st1, [PoolEv.getConnCall, PoolEv.lockAcquired host 0])
  | some pool =>
    match getConnLoop pool maxConn 30 with
    | none => (none, st, [PoolEv.getConnCall])
    | some (idx, isCreate, cl, pool2) =>
      let st1 : PoolState := ⟨aupdate host pool2 st.hosts⟩
      if isCreate then
        match create with
        | some cid =>
          let pool3 := aupdate idx ⟨true, some cid⟩ pool2
          (some (idx, some cid), ⟨aupdate host pool3 st1.hosts⟩,
            [PoolEv.getConnCall, PoolEv.lockAcquired host idx])
        | none => (none, st1, [PoolEv.getConnCall, PoolEv.lockAcquired host idx])
      else
        (some (idx, cl), st1, [PoolEv.getConnCall, PoolEv.lockAcquired host idx])

/-- `SSHConnectionPool.release_connection` (lines 205-215): unlock the
slot if present (a release of an unlocked lock raises and is swallowed,
leaving the same unlocked state). -/
def releaseConnection (host : String) (conn : Nat) (st : PoolState) : PoolState × List PoolEv :=
  match alookup host st.hosts with
  | none => (st, [])
  | some pool =>
    match alookup conn pool with
    | none => (st, [])
    | some s =>
      (⟨aupdate host (aupdate conn ⟨false, s.client⟩ pool) st.hosts⟩,
       [PoolEv.released host conn])

/-- `SSHConnectionPool.disconnect` (lines 217-227): delete the slot. -/
def disconnect (host : String) (conn : Nat) (st : PoolState) : PoolState × List PoolEv :=
  match alookup host st.hosts with
  | none => (st, [])
  | some pool =>
    match alookup conn pool with
    | none => (st, [])
    | some _ =>
      (⟨aupdate host (aerase conn pool) st.hosts⟩, [PoolEv.evicted host conn])

/-- A result of `client.exec_commands(filter_commands)` as seen by
`execute_command`: `None`, the string `"failed"`, or a result dict. -/
inductive ExecOut where
  | nullRes
  | failedTag
  | dict (d : List (String × String))
  deriving DecidableEq, Repr

/-- The `{status, msg, data}` result of `execute_command`. -/
structure RunResult where
  status : String
  msg : String
  data : List (String × String)
  deriving DecidableEq, Repr

/-- The blank-command filter of lines 244-248. -/
def filterCommands (commands : List String) : List String :=
  commands.filterMap (fun c => if pyStrip c = "" then none else some (pyStrip c))

/-- `"\n".join(result.values())` as a character list. -/
def joinVals (d : List (String × String)) : List Char :=
  match d.map (fun kv => kv.2.data) with
  | [] => []
  | h :: t => t.foldl (fun acc v => acc ++ '\n' :: v) h

/-- The stale-output test `"\n".join(result.values()).strip() == ""`. -/
def joinedEmpty (d : List (String × String)) : Bool :=
  (trimChars (joinVals d)).isEmpty

/-- The `while retry > 0` body of `execute_command` (lines 233-271):
`attempt` numbers the `get_connection`/`exec_commands` oracle calls in
order. `execOr` abstracts `client.exec_commands` for the session of that
attempt. -/
def executeCommandGo (maxConn : Nat) (createOr : Nat → Option Nat) (execOr : Nat → ExecOut)
    (host : String) (commands : List String) :
    Nat → Nat → PoolState → List PoolEv → RunResult × PoolState × List PoolEv
  | 0, _, st, evs => (⟨"failed", "命令执行失败", []⟩, st, evs)
  | fuel + 1, attempt, st, evs =>
    match getConnection maxConn (createOr attempt) host st with
    | (none, st1, evs1) =>
      executeCommandGo maxConn createOr execOr host commands fuel (attempt + 1) st1 (evs ++ evs1)
    | (some (conn, none), st1, evs1) =>
      let r2 := disconnect host conn st1
      executeCommandGo maxConn createOr execOr host commands fuel (attempt + 1) r2.1
        (evs ++ evs1 ++ r2.2)
    | (some (conn, some _), st1, evs1) =>
      if filterCommands commands = [] then
        let r2 := releaseConnection host conn st1
        (⟨"success", "命令列表为空", []⟩, r2.1, evs ++ evs1 ++ r2.2)
      else
        match execOr attempt with
        | ExecOut.nullRes =>
          executeCommandGo maxConn createOr execOr host commands fuel (attempt + 1) st1
            (evs ++ evs1)
        | ExecOut.failedTag =>
          executeCommandGo maxConn createOr execOr host commands fuel (attempt + 1) st1
            (evs ++ evs1)
        | ExecOut.dict d =>
          if joinedEmpty d then
            let r2 := disconnect host conn st1
            executeCommandGo maxConn createOr execOr host commands fuel (attempt + 1) r2.1
              (evs ++ evs1 ++ r2.2)
          else
            let r2 := releaseConnection host conn st1
            (⟨"success", "命令执行成功", d⟩, r2.1, evs ++ evs1 ++ r2.2)

/-- `SSHConnectionPool.execute_command(host, commands, vendor)` for a list
argument (the non-list guard of line 230 cannot fire for a typed list):
up to 3 attempts, then the failure result. -/
def executeCommand (maxConn : Nat) (createOr : Nat → Option Nat) (execOr : Nat → ExecOut)
    (host : String) (commands : List String) (st : PoolState) :
    RunResult × PoolState × List PoolEv :=
  executeCommandGo maxConn createOr execOr host commands 3 0 st []

theorem alookup_aupdate_self {α β : Type} [DecidableEq α] (k : α) (v : β)
    (l : List (α × β)) : alookup k (aupdate k v l) = some v := by
  induction l with
  | nil => simp [aupdate, alookup]
  | cons kv rest ih =>
    obtain ⟨k2, v2⟩ := kv
    by_cases h : k2 = k
    · simp [aupdate, alookup, h]
    · simp [aupdate, alookup, h, ih]

theorem alookup_aupdate_ne {α β : Type} [DecidableEq α] {k k2 : α} (h : k2 ≠ k)
    (v : β) (l : List (α × β)) : alookup k (aupdate k2 v l) = alookup k l := by
  induction l with
  | nil => simp [aupdate, alookup, h]
  | cons kv rest ih =>
    obtain ⟨k3, v3⟩ := kv
    by_cases h3 : k3 = k2
    · subst h3
      simp [aupdate, alookup, h]
    · by_cases h4 : k3 = k
      · simp [aupdate, alookup, h3, h4, Ne.symm h]
      · simp [aupdate, alookup, h3, h4, ih]

theorem aupdate_aupdate_self {α β : Type} [DecidableEq α] (k : α) (v1 v2 : β)
    (l : List (α × β)) : aupdate k v2 (aupdate k v1 l) = aupdate k v2 l := by
  induction l with
  | nil => simp [aupdate]
  | cons kv rest ih =>
    obtain ⟨k2, v3⟩ := kv
    by_cases hk : k2 = k
    · simp [aupdate, hk]
    · simp [aupdate, hk, ih]

theorem filterCommands_eq_nil {commands : List String}
    (h : ∀ c ∈ commands, pyStrip c = "") : filterCommands commands = [] := by
  induction commands with
  | nil => rfl
  | cons c rest ih =>
    have hc : pyStrip c = "" := h c (List.mem_cons_self c rest)
    have hr := ih (fun x hx => h x (List.mem_cons_of_mem c hx))
    simpa [filterCommands, List.filterMap_cons, hc] using hr

/-- C2 counterexample: a call with the single blank command `"   "` and a
connectable host returns `status: "success"` with empty data, but
`get_connection` was invoked and the slot lock was taken during the call —
the pool is touched before the blank filter runs, contrary to the claim
that no pool acquisition happens. -/
theorem c2_counterexample :
    (executeCommand 4 (fun _ => some 0) (fun _ => ExecOut.nullRes) "10.0.0.1" ["   "] ⟨[]⟩).1
        = ⟨"success", "命令列表为空", []⟩
      ∧ PoolEv.getConnCall
          ∈ (executeCommand 4 (fun _ => some 0) (fun _ => ExecOut.nullRes) "10.0.0.1" ["   "] ⟨[]⟩).2.2
      ∧ PoolEv.lockAcquired "10.0.0.1" 0
          ∈ (executeCommand 4 (fun _ => some 0) (fun _ => ExecOut.nullRes) "10.0.0.1" ["   "] ⟨[]⟩).2.2 := by
  decide

/-- C2 (amended): for a non-empty command list of blank/whitespace-only
strings against a fresh host whose session construction succeeds,
`execute_command` returns `status: "success"` with empty data — but only
after invoking `get_connection`, taking the slot 0 lock, and releasing it:
the blank filter runs after pool acquisition, not before. -/
theorem c2_amended (host : String) (cid : Nat) (execOr : Nat → ExecOut)
    (commands : List String) (st : PoolState)
    (hfresh : alookup host st.hosts = none) (_hne : commands ≠ [])
    (hblank : ∀ c ∈ commands, pyStrip c = "") :
    executeCommand 4 (fun _ => some cid) execOr host commands st
      = (⟨"success", "命令列表为空", []⟩,
         ⟨aupdate host [(0, ⟨false, some cid⟩)] st.hosts⟩,
         [PoolEv.getConnCall, PoolEv.lockAcquired host 0, PoolEv.released host 0]) := by
  have hfc : filterCommands commands = [] := filterCommands_eq_nil hblank
  simp [executeCommand, executeCommandGo, getConnection, releaseConnection,
    alookup, aupdate, newSlot, hfc, hfresh, alookup_aupdate_self, aupdate_aupdate_self]

/-- C2 witness: the amended theorem at the concrete blank batch. -/
theorem c2_witness :
    executeCommand 4 (fun _ => some 3) (fun _ => ExecOut.nullRes) "10.0.0.1" ["   ", "\t"] ⟨[]⟩
      = (⟨"success", "命令列表为空", []⟩,
         ⟨[("10.0.0.1", [(0, ⟨false, some 3⟩)])]⟩,
         [PoolEv.getConnCall, PoolEv.lockAcquired "10.0.0.1" 0,
          PoolEv.released "10.0.0.1" 0]) :=
  c2_amended "10.0.0.1" 3 (fun _ => ExecOut.nullRes) ["   ", "\t"] ⟨[]⟩ (by decide)
    (by decide) (by decide)

/-- C4: whenever `exec_commands` returns a result map whose joined values
strip to the empty string, `execute_command` evicts the slot (disconnect)
instead of releasing it and retries the acquire/execute cycle with a
freshly constructed session; the stale condition is not surfaced — a later
good attempt still returns success — and only when all 3 attempts are
stale does the call return `status: "failed"` with empty data. -/
theorem c4_stale_eviction (host : String) (cid : Nat → Nat)
    (d : Nat → List (String × String)) (commands : List String)
    (d1 : List (String × String)) (st : PoolState)
    (hfresh : alookup host st.hosts = none)
    (hfc : filterCommands commands ≠ [])
    (hstale : ∀ n, joinedEmpty (d n) = true)
    (hgood : joinedEmpty d1 = false) :
    executeCommand 4 (fun n => some (cid n)) (fun n => ExecOut.dict (d n)) host commands st
        = (⟨"failed", "命令执行失败", []⟩, ⟨aupdate host [] st.hosts⟩,
           [PoolEv.getConnCall, PoolEv.lockAcquired host 0, PoolEv.evicted host 0,
            PoolEv.getConnCall, PoolEv.lockAcquired host 0, PoolEv.evicted host 0,
            PoolEv.getConnCall, PoolEv.lockAcquired host 0, PoolEv.evicted host 0])
      ∧ executeCommand 4 (fun n => some (cid n))
          (fun n => if n = 0 then ExecOut.dict (d 0) else ExecOut.dict d1) host commands st
        = (⟨"success", "命令执行成功", d1⟩,
           ⟨aupdate host [(0, ⟨false, some (cid 1)⟩)] st.hosts⟩,
           [PoolEv.getConnCall, PoolEv.lockAcquired host 0, PoolEv.evicted host 0,
            PoolEv.getConnCall, PoolEv.lockAcquired host 0, PoolEv.released host 0]) := by
  constructor
  · simp [executeCommand, executeCommandGo, getConnection, getConnLoop, scanSlots,
      disconnect, alookup, aupdate, aerase, newSlot, hfc, hstale, hfresh,
      alookup_aupdate_self, aupdate_aupdate_self]
  · simp [executeCommand, executeCommandGo, getConnection, getConnLoop, scanSlots,
      disconnect, releaseConnection, alookup, aupdate, aerase, newSlot, hfc,
      hstale 0, hgood, hfresh, alookup_aupdate_self, aupdate_aupdate_self]

/-- C4 witness: the theorem at a concrete one-command batch with an
all-empty result dict and a non-empty one. -/
theorem c4_witness :
    executeCommand 4 (fun n => some n) (fun _ => ExecOut.dict [("[0]ls", "")]) "h" ["ls"] ⟨[]⟩
        = (⟨"failed", "命令执行失败", []⟩, ⟨[("h", [])]⟩,
           [PoolEv.getConnCall, PoolEv.lockAcquired "h" 0, PoolEv.evicted "h" 0,
            PoolEv.getConnCall, PoolEv.lockAcquired "h" 0, PoolEv.evicted "h" 0,
            PoolEv.getConnCall, PoolEv.lockAcquired "h" 0, PoolEv.evicted "h" 0])
      ∧ executeCommand 4 (fun n => some n)
          (fun n => if n = 0 then ExecOut.dict [("[0]ls", "")]
                    else ExecOut.dict [("[0]ls", "hello")]) "h" ["ls"] ⟨[]⟩
        = (⟨"success", "命令执行成功", [("[0]ls", "hello")]⟩,
           ⟨[("h", [(0, ⟨false, some 1⟩)])]⟩,
           [PoolEv.getConnCall, PoolEv.lockAcquired "h" 0, PoolEv.evicted "h" 0,
            PoolEv.getConnCall, PoolEv.lockAcquired "h" 0, PoolEv.released "h" 0]) :=
  c4_stale_eviction "h" (fun n => n) (fun _ => [("[0]ls", "")]) ["ls"]
    [("[0]ls", "hello")] ⟨[]⟩ (by decide) (by decide)
    (by intro n; show joinedEmpty [("[0]ls", "")] = true; decide) (by decide)

/-- C9: when `get_connection` creates and locks a slot and
`SSHClientFactory.create_client` then returns `None`, it returns `None`
with the slot lock still held and with neither `release_connection` nor
`disconnect` invoked; the locked slot is skipped by the next acquire
(which moves on to slot 1); and in `execute_command`, attempts whose
`exec_commands` returns `None` or `"failed"` neither release nor evict the
held slot before retrying, so a full run leaks one permanently locked
slot per attempt. -/
theorem c9_lock_leak (host : String) (st : PoolState) (cid : Nat → Nat)
    (execOr : Nat → ExecOut) (commands : List String) (create2 : Option Nat)
    (hfresh : alookup host st.hosts = none)
    (hfc : filterCommands commands ≠ [])
    (hx : ∀ n, execOr n = ExecOut.nullRes ∨ execOr n = ExecOut.failedTag) :
    getConnection 4 none host st
        = (none, ⟨aupdate host [(0, newSlot)] st.hosts⟩,
           [PoolEv.getConnCall, PoolEv.lockAcquired host 0])
      ∧ (getConnection 4 create2 host ⟨aupdate host [(0, newSlot)] st.hosts⟩).1
        = (match create2 with
           | some cid2 => some (1, some cid2)
           | none => none)
      ∧ executeCommand 4 (fun n => some (cid n)) execOr host commands st
        = (⟨"failed", "命令执行失败", []⟩,
           ⟨aupdate host [(0, ⟨true, some (cid 0)⟩), (1, ⟨true, some (cid 1)⟩),
                          (2, ⟨true, some (cid 2)⟩)] st.hosts⟩,
           [PoolEv.getConnCall, PoolEv.lockAcquired host 0,
            PoolEv.getConnCall, PoolEv.lockAcquired host 1,
            PoolEv.getConnCall, PoolEv.lockAcquired host 2]) := by
  refine ⟨?_, ?_, ?_⟩
  · simp [getConnection, hfresh]
  · have hself := alookup_aupdate_self host ([(0, newSlot)] : HostPool) st.hosts
    cases create2 with
    | none =>
      simp only [getConnection, hself]
      simp [getConnLoop, scanSlots, alookup, aupdate, newSlot]
    | some cid2 =>
      simp only [getConnection, hself]
      simp [getConnLoop, scanSlots, alookup, aupdate, newSlot]
  · rcases hx 0 with h0 | h0 <;> rcases hx 1 with h1 | h1 <;> rcases hx 2 with h2 | h2 <;>
      simp [executeCommand, executeCommandGo, getConnection, getConnLoop, scanSlots,
        alookup, aupdate, newSlot, hfc, h0, h1, h2, hfresh,
        alookup_aupdate_self, aupdate_aupdate_self]

/-- C9 witness: the theorem at a fresh registry, a failing exec oracle and
a one-command batch. -/
theorem c9_witness :
    getConnection 4 none "h" ⟨[]⟩
        = (none, ⟨aupdate "h" [(0, newSlot)] ([] : List (String × HostPool))⟩,
           [PoolEv.getConnCall, PoolEv.lockAcquired "h" 0])
      ∧ (getConnection 4 (some 9) "h" ⟨aupdate "h" [(0, newSlot)] ([] : List (String × HostPool))⟩).1
        = (match (some 9 : Option Nat) with
           | some cid2 => some (1, some cid2)
           | none => none)
      ∧ executeCommand 4 (fun n => some n) (fun _ => ExecOut.nullRes) "h" ["ls"] ⟨[]⟩
        = (⟨"failed", "命令执行失败", []⟩,
           ⟨[("h", [(0, ⟨true, some 0⟩), (1, ⟨true, some 1⟩), (2, ⟨true, some 2⟩)])]⟩,
           [PoolEv.getConnCall, PoolEv.lockAcquired "h" 0,
            PoolEv.getConnCall, PoolEv.lockAcquired "h" 1,
            PoolEv.getConnCall, PoolEv.lockAcquired "h" 2]) := by
  have h := c9_lock_leak "h" ⟨[]⟩ (fun n => n) (fun _ => ExecOut.nullRes) ["ls"] (some 9)
    (by decide) (by decide) (fun _ => Or.inl rfl)
  exact ⟨h.1, h.2.1, h.2.2.trans (by decide)⟩

/-! Invariant machinery for C5: per-host pools keep distinct slot indices
drawn from `0 .. max_connections_per_host - 1`, so no host ever has more
than `max_connections_per_host` slots (and hence bound sessions). -/

/-- The keys of an association list. -/
def akeys {α β : Type} (l : List (α × β)) : List α := l.map Prod.fst

/-- A per-host pool is well formed for capacity `maxConn` when its slot
indices are distinct and all below `maxConn`. -/
def poolKeysBounded (maxConn : Nat) (pool : HostPool) : Prop :=
  (akeys pool).Nodup ∧ ∀ k ∈ akeys pool, k < maxConn

/-- Every pool of the registry is well formed. -/
def stateBounded (maxConn : Nat) (st : PoolState) : Prop :=
  ∀ host pool, alookup host st.hosts = some pool → poolKeysBounded maxConn pool

theorem akeys_cons {α β : Type} (kv : α × β) (rest : List (α × β)) :
    akeys (kv :: rest) = kv.1 :: akeys rest := rfl

theorem alookup_mem_akeys {α β : Type} [DecidableEq α] {k : α} {v : β} :
    ∀ {l : List (α × β)}, alookup k l = some v → k ∈ akeys l := by
  intro l
  induction l with
  | nil => intro h; simp [alookup] at h
  | cons kv rest ih =>
    intro h
    obtain ⟨k2, v2⟩ := kv
    rw [akeys_cons]
    by_cases hk : k2 = k
    · subst hk
      exact List.mem_cons_self _ _
    · rw [alookup, if_neg hk] at h
      exact List.mem_cons_of_mem _ (ih h)

theorem akeys_aupdate_of_mem {α β : Type} [DecidableEq α] {k : α} (v : β) :
    ∀ {l : List (α × β)}, k ∈ akeys l → akeys (aupdate k v l) = akeys l := by
  intro l
  induction l with
  | nil => intro h; simp [akeys] at h
  | cons kv rest ih =>
    intro h
    obtain ⟨k2, v2⟩ := kv
    by_cases hk : k2 = k
    · subst hk
      rw [aupdate, if_pos rfl, akeys_cons, akeys_cons]
    · rw [aupdate, if_neg hk, akeys_cons, akeys_cons]
      rw [akeys_cons] at h
      rcases List.mem_cons.mp h with h2 | h2
      · exact absurd h2.symm hk
      · rw [ih h2]

theorem akeys_aupdate_of_not_mem {α β : Type} [DecidableEq α] {k : α} (v : β) :
    ∀ {l : List (α × β)}, k ∉ akeys l → akeys (aupdate k v l) = akeys l ++ [k] := by
  intro l
  induction l with
  | nil => intro _; rfl
  | cons kv rest ih =>
    intro h
    obtain ⟨k2, v2⟩ := kv
    rw [akeys_cons] at h
    have hk : k2 ≠ k := fun he => h (by rw [he]; exact List.mem_cons_self k (akeys rest))
    have h2 : k ∉ akeys rest := fun hm => h (List.mem_cons_of_mem k2 hm)
    rw [aupdate, if_neg hk, akeys_cons, akeys_cons, ih h2]
    rfl

theorem poolKeysBounded_aupdate_mem {maxConn k : Nat} (v : Slot) {pool : HostPool}
    (hb : poolKeysBounded maxConn pool) (hm : k ∈ akeys pool) :
    poolKeysBounded maxConn (aupdate k v pool) := by
  constructor
  · rw [akeys_aupdate_of_mem v hm]
    exact hb.1
  · rw [akeys_aupdate_of_mem v hm]
    exact hb.2

theorem poolKeysBounded_aupdate_lt {maxConn k : Nat} (v : Slot) {pool : HostPool}
    (hb : poolKeysBounded maxConn pool) (hk : k < maxConn) :
    poolKeysBounded maxConn (aupdate k v pool) := by
  by_cases hm : k ∈ akeys pool
  · exact poolKeysBounded_aupdate_mem v hb hm
  · constructor
    · rw [akeys_aupdate_of_not_mem v hm]
      simp [List.nodup_append, hb.1, hm]
    · rw [akeys_aupdate_of_not_mem v hm]
      intro x hx
      rcases List.mem_append.mp hx with h2 | h2
      · exact hb.2 x h2
      · rw [List.mem_singleton] at h2
        exact h2 ▸ hk

theorem akeys_aerase_sublist {α β : Type} [DecidableEq α] (k : α) (l : List (α × β)) :
    List.Sublist (akeys (aerase k l)) (akeys l) := by
  induction l with
  | nil => simp [aerase, akeys]
  | cons kv rest ih =>
    obtain ⟨k2, v2⟩ := kv
    by_cases hk : k2 = k
    · subst hk
      rw [aerase, if_pos rfl, akeys_cons]
      exact List.sublist_cons_self k2 (akeys rest)
    · simpa [aerase, akeys, hk] using List.Sublist.cons₂ k2 ih

theorem poolKeysBounded_aerase {maxConn : Nat} (k : Nat) {pool : HostPool}
    (hb : poolKeysBounded maxConn pool) :
    poolKeysBounded maxConn (aerase k pool) :=
  ⟨hb.1.sublist (akeys_aerase_sublist k pool),
   fun x hx => hb.2 x ((akeys_aerase_sublist k pool).subset hx)⟩

theorem stateBounded_aupdate {maxConn : Nat} {st : PoolState} {host : String}
    {pool : HostPool} (hb : stateBounded maxConn st)
    (hp : poolKeysBounded maxConn pool) :
    stateBounded maxConn ⟨aupdate host pool st.hosts⟩ := by
  intro h p hlk
  by_cases hh : host = h
  · subst hh
    rw [alookup_aupdate_self] at hlk
    cases hlk
    exact hp
  · rw [alookup_aupdate_ne hh] at hlk
    exact hb h p hlk

theorem scanSlots_shape (pool : HostPool) :
    ∀ (remaining idx i : Nat) (b : Bool) (c : Option Nat) (pool2 : HostPool),
      scanSlots pool remaining idx = some (i, b, c, pool2) →
      i < idx + remaining ∧ ∃ v, pool2 = aupdate i v pool := by
  intro remaining
  induction remaining with
  | zero =>
    intro idx i b c pool2 h
    exact absurd h (by simp [scanSlots])
  | succ rem ih =>
    intro idx i b c pool2 h
    rw [scanSlots] at h
    split at h
    · rename_i s hs
      split at h
      · obtain ⟨h1, h2⟩ := ih (idx + 1) i b c pool2 h
        exact ⟨by omega, h2⟩
      · simp only [Option.some.injEq, Prod.mk.injEq] at h
        obtain ⟨h1, _, _, h4⟩ := h
        refine ⟨by omega, ⟨⟨true, s.client⟩, ?_⟩⟩
        rw [← h4, h1]
    · simp only [Option.some.injEq, Prod.mk.injEq] at h
      obtain ⟨h1, _, _, h4⟩ := h
      refine ⟨by omega, ⟨newSlot, ?_⟩⟩
      rw [← h4, h1]

theorem getConnLoop_shape {pool : HostPool} {maxConn : Nat} :
    ∀ (fuel i : Nat) (b : Bool) (c : Option Nat) (pool2 : HostPool),
      getConnLoop pool maxConn fuel = some (i, b, c, pool2) →
      i < maxConn ∧ ∃ v, pool2 = aupdate i v pool := by
  intro fuel
  induction fuel with
  | zero =>
    intro i b c pool2 h
    exact absurd h (by simp [getConnLoop])
  | succ f ih =>
    intro i b c pool2 h
    rw [getConnLoop] at h
    split at h
    · rename_i r hscan
      injection h with h2
      subst h2
      obtain ⟨h1, h3⟩ := scanSlots_shape pool maxConn 0 i b c pool2 hscan
      exact ⟨by omega, h3⟩
    · exact ih i b c pool2 h

theorem getConnection_bounded (maxConn : Nat) (create : Option Nat) (host : String)
    (st : PoolState) (hm : 1 ≤ maxConn) (hb : stateBounded maxConn st) :
    stateBounded maxConn (getConnection maxConn create host st).2.1 := by
  have hpool0 : poolKeysBounded maxConn [(0, newSlot)] := by
    constructor
    · simp [akeys]
    · intro k hk
      simp [akeys] at hk
      omega
  cases halk : alookup host st.hosts with
  | none =>
    simp only [getConnection, halk]
    cases create with
    | some cid =>
      exact stateBounded_aupdate (stateBounded_aupdate hb hpool0)
        (poolKeysBounded_aupdate_lt ⟨true, some cid⟩ hpool0 (by omega))
    | none => exact stateBounded_aupdate hb hpool0
  | some pool =>
    simp only [getConnection, halk]
    have hpb : poolKeysBounded maxConn pool := hb host pool halk
    cases hloop : getConnLoop pool maxConn 30 with
    | none => exact hb
    | some r =>
      obtain ⟨i, b, c, pool2⟩ := r
      obtain ⟨hi, v, hpool2⟩ := getConnLoop_shape 30 i b c pool2 hloop
      have hpb2 : poolKeysBounded maxConn pool2 := by
        rw [hpool2]
        exact poolKeysBounded_aupdate_lt v hpb hi
      cases b with
      | true =>
        cases create with
        | some cid =>
          exact stateBounded_aupdate (stateBounded_aupdate hb hpb2)
            (poolKeysBounded_aupdate_lt ⟨true, some cid⟩ hpb2 hi)
        | none => exact stateBounded_aupdate hb hpb2
      | false => exact stateBounded_aupdate hb hpb2

theorem releaseConnection_bounded (host : String) (conn maxConn : Nat)
    (st : PoolState) (hb : stateBounded maxConn st) :
    stateBounded maxConn (releaseConnection host conn st).1 := by
  cases halk : alookup host st.hosts with
  | none => simp only [releaseConnection, halk]; exact hb
  | some pool =>
    simp only [releaseConnection, halk]
    cases halk2 : alookup conn pool with
    | none => exact hb
    | some s =>
      have hpb : poolKeysBounded maxConn pool := hb host pool halk
      exact stateBounded_aupdate hb
        (poolKeysBounded_aupdate_mem ⟨false, s.client⟩ hpb (alookup_mem_akeys halk2))

theorem disconnect_bounded (host : String) (conn maxConn : Nat)
    (st : PoolState) (hb : stateBounded maxConn st) :
    stateBounded maxConn (disconnect host conn st).1 := by
  cases halk : alookup host st.hosts with
  | none => simp only [disconnect, halk]; exact hb
  | some pool =>
    simp only [disconnect, halk]
    cases halk2 : alookup conn pool with
    | none => exact hb
    | some s =>
      have hpb : poolKeysBounded maxConn pool := hb host pool halk
      exact stateBounded_aupdate hb (poolKeysBounded_aerase conn hpb)

theorem poolKeysBounded_length {maxConn : Nat} {pool : HostPool}
    (h : poolKeysBounded maxConn pool) : pool.length ≤ maxConn := by
  have hcard : (akeys pool).toFinset.card = (akeys pool).length :=
    List.toFinset_card_of_nodup h.1
  have hsub : (akeys pool).toFinset ⊆ Finset.range maxConn := by
    intro x hx
    rw [List.mem_toFinset] at hx
    rw [Finset.mem_range]
    exact h.2 x hx
  have hle := Finset.card_le_card hsub
  rw [hcard, Finset.card_range] at hle
  simpa [akeys] using hle

/-- C5: for every reachable well-formed registry state, each of the pool
operations — `get_connection` (with any construction outcome),
`release_connection`, `disconnect` — preserves the per-host slot
invariant, and the invariant bounds the number of slots (hence of
concurrently bound sessions) of every host by `max_connections_per_host`. -/
theorem c5_slot_bound (maxConn : Nat) (st : PoolState) (create : Option Nat)
    (host host2 host3 : String) (conn conn2 : Nat)
    (hm : 1 ≤ maxConn) (hb : stateBounded maxConn st) :
    stateBounded maxConn (getConnection maxConn create host st).2.1
      ∧ stateBounded maxConn (releaseConnection host2 conn st).1
      ∧ stateBounded maxConn (disconnect host3 conn2 st).1
      ∧ ∀ h4 pool, alookup h4 st.hosts = some pool → pool.length ≤ maxConn :=
  ⟨getConnection_bounded maxConn create host st hm hb,
   releaseConnection_bounded host2 conn maxConn st hb,
   disconnect_bounded host3 conn2 maxConn st hb,
   fun h4 pool hp => poolKeysBounded_length (hb h4 pool hp)⟩

/-- C5 witness: the theorem at the default capacity 4 on the empty
registry. -/
theorem c5_witness :
    (1 ≤ 4)
      ∧ stateBounded 4 (getConnection 4 (some 7) "10.0.0.1" ⟨[]⟩).2.1
      ∧ ∀ h4 pool, alookup h4 (⟨[]⟩ : PoolState).hosts = some pool → pool.length ≤ 4 := by
  have hb : stateBounded 4 ⟨[]⟩ := fun h p hp => absurd hp (by simp [alookup])
  have h := c5_slot_bound 4 ⟨[]⟩ (some 7) "10.0.0.1" "10.0.0.1" "10.0.0.1" 0 0
    (by decide) hb
  exact ⟨by decide, h.1, h.2.2.2⟩

/-! Model of `SSHClientFactory.create_client` vendor dispatch (sshClient.py
lines 44-82) and of `run_ssh_command` (lines 280-295).  Only the dispatch
is modelled: which execute-command call is made and which construction
path `create_client` takes for the vendor argument it receives.  The SNMP
auto-identification collaborator is an oracle returning the identified
vendor tag or `none`. -/

/-- The keys of `SSHClientFactory.VENDOR_CLASS_MAP` (lines 32-42). -/
def vendorClassMapKeys : List String :=
  ["h3c", "huawei", "cisco_nx", "cisco_xr", "juniper", "arista", "ruijie",
   "hillstone", "debian"]

/-- The construction path taken by `create_client`. -/
inductive CreatePath where
  | constructed (vendor : String)
  | unsupported (vendor : String)
  | identifyFailed
  deriving DecidableEq, Repr

/-- Python `str.lower()` (ASCII range). -/
def pyLower (s : String) : String := ⟨s.data.map Char.toLower⟩

/-- `create_client(host, username, password, vendor)` dispatch: an empty
vendor triggers SNMP auto-identification (`identify`), whose result is
lowercased and looked up in the registry; a non-empty vendor is looked up
directly; an unknown vendor or failed identification yields `None`. -/
def createClientPath (identify : Option String) (vendor : String) : CreatePath :=
  if vendor = "" then
    match identify with
    | none => CreatePath.identifyFailed
    | some v =>
      if pyLower v ∈ vendorClassMapKeys then CreatePath.constructed (pyLower v)
      else CreatePath.unsupported (pyLower v)
  else
    if vendor ∈ vendorClassMapKeys then CreatePath.constructed vendor
    else CreatePath.unsupported vendor

/-- The `execute_command` invocation made by `run_ssh_command`: the
supplied vendor is forwarded only when it is a registry key, otherwise
`execute_command` is called without a vendor (empty string default). -/
def runSshCommandVendor (vendor : String) : String :=
  if vendor ∈ vendorClassMapKeys then vendor else ""

/-- C10: for every vendor string that is not a registry key,
`run_ssh_command` silently drops the vendor and calls `execute_command`
with the empty vendor, so `create_client` goes through SNMP
auto-identification — succeeding for any identifiable supported vendor and
failing only as `identifyFailed`, never as direct unsupported-vendor
rejection of the supplied tag. -/
theorem c10_unknown_vendor_dropped (vendor : String)
    (hv : vendor ∉ vendorClassMapKeys) :
    runSshCommandVendor vendor = ""
      ∧ createClientPath none (runSshCommandVendor vendor) = CreatePath.identifyFailed
      ∧ ∀ v, pyLower v ∈ vendorClassMapKeys →
          createClientPath (some v) (runSshCommandVendor vendor)
            = CreatePath.constructed (pyLower v) := by
  have h1 : runSshCommandVendor vendor = "" := by
    unfold runSshCommandVendor
    rw [if_neg hv]
  refine ⟨h1, ?_, ?_⟩
  · rw [h1]
    rfl
  · intro v hm
    rw [h1]
    unfold createClientPath
    rw [if_pos rfl]
    simp [hm]

/-- C10 witness: the misspelled vendor tag `"cisco"` (not a registry key)
is dropped; identification as `"Debian"` still constructs a session. -/
theorem c10_witness :
    ("cisco" ∉ vendorClassMapKeys)
      ∧ runSshCommandVendor "cisco" = ""
      ∧ createClientPath none (runSshCommandVendor "cisco") = CreatePath.identifyFailed
      ∧ createClientPath (some "Debian") (runSshCommandVendor "cisco")
          = CreatePath.constructed "debian" := by
  have h := c10_unknown_vendor_dropped "cisco" (by decide)
  exact ⟨by decide, h.1, h.2.1, (h.2.2 "Debian" (by decide)).trans (by decide)⟩

end AgentNode
